import Mathlib

/-!
Verification of the FFDNet training/inference driver
(src/Super_resolution/ffdnet.py) against its design specification.

The Python file is orchestration glue around an external network module:
argument handling, noise-level enumeration, a training/validation loop with
periodic checkpointing, patch extraction, and an inference driver.  The
definitions below are a shallow embedding of that glue, translated from the
source; theorems settle the specification's claims about it.
-/

namespace FFDNet

/-- Python's built-in range(start, stop, step) for a positive step, as used at
ffdnet.py lines 88-89 (the source only ever calls it with step 15 or 30).
The element count is the ceiling of (stop - start) / step, clamped at zero. -/
def pythonRange (start stop step : Int) : List Int :=
  if 0 < step then
    (List.range ((stop - start + step - 1) / step).toNat).map
      (fun i => start + step * i)
  else []

/-- Interval adjustment performed in main (ffdnet.py lines 313-314):
the second entry of the three-element noise interval is incremented by one
before train enumerates it. -/
def adjustNoiseInterval (iv : Int × Int × Int) : Int × Int × Int :=
  (iv.1, iv.2.1 + 1, iv.2.2)

/-- Noise-level enumeration in train (ffdnet.py lines 88-89):
list(range(interval[0], interval[1], interval[2])). -/
def noiseLevels (iv : Int × Int × Int) : List Int :=
  pythonRange iv.1 iv.2.1 iv.2.2

/-- Training noise levels as the program computes them: main's +1 adjustment
followed by train's range enumeration. -/
def trainNoiseLevels (iv : Int × Int × Int) : List Int :=
  noiseLevels (adjustNoiseInterval iv)

/-- Checkpoint path selection in train (ffdnet.py lines 160 and 207):
model_path + ('net_gray.pth' if args.is_gray else 'net_rgb.pth'). -/
def trainCheckpointPath (model_path : String) (is_gray : Bool) : String :=
  model_path ++ (if is_gray then "net_gray.pth" else "net_rgb.pth")

/-- Hardcoded local flag in test (ffdnet.py line 215): is_gray = True.
The function ignores the parsed --is_gray argument entirely. -/
def testHardcodedIsGray : Bool := true

/-- Checkpoint path selection in test (ffdnet.py line 216):
model_path + ('net_gray.pth' if is_gray else 'net_rgb.pth'), where is_gray is
the hardcoded local variable, not the parsed argument (which is the second
parameter here and is unused, exactly as in the source). -/
def testCheckpointPath (model_path : String) (_args_is_gray : Bool) : String :=
  model_path ++ (if testHardcodedIsGray then "net_gray.pth" else "net_rgb.pth")

/-- Noise-sigma normalization: main (line 312) divides the CLI test sigma by
255, and train (lines 116 and 171) divides each enumerated integer level by
255 before use.  Reals are modelled by rationals. -/
def normalizeSigma (x : ℚ) : ℚ := x / 255

/-- Abstract top-level actions selected by main (ffdnet.py lines 316-320). -/
inductive MainAction where
  | runTrain
  | runTest
  deriving DecidableEq, Repr

/-- Assertion at ffdnet.py line 303: assert (args.is_train or args.is_test)
with its message; a failed assert aborts the process. -/
def mainAssert (is_train is_test : Bool) : Except String Unit :=
  if is_train || is_test then Except.ok ()
  else Except.error "is_train 和 is_test 至少有一个为 True"

/-- Main's dispatch (ffdnet.py lines 302-320): the assertion runs first, and
only when it passes does main go on to run train and/or test. -/
def mainActions (is_train is_test : Bool) : Except String (List MainAction) :=
  match mainAssert is_train is_test with
  | Except.error m => Except.error m
  | Except.ok _ =>
      Except.ok ((if is_train then [MainAction.runTrain] else []) ++
                 (if is_test then [MainAction.runTest] else []))

/-- Phase tag distinguishing the training inner loop's forward passes from
the validation loop's. -/
inductive Phase where
  | train
  | val
  deriving DecidableEq, Repr

/-- Observable instructions issued by train (ffdnet.py lines 106-210) to the
network, optimizer and checkpoint store.  setMode b is model.train()
(b = true) or model.eval() (b = false); forward records the phase, epoch,
batch and integer noise level of a call to model(...), together with whether
it runs inside a torch.no_grad() context (noGrad); backward is
train_loss.backward(); optStep is optimizer.step(); save is
torch.save(model.state_dict(), path). -/
inductive Instr where
  | setMode (training : Bool)
  | forward (phase : Phase) (epoch batch : Nat) (noise : Int) (noGrad : Bool)
  | backward
  | optStep
  | save (path : String)
  deriving DecidableEq, Repr

/-- Network state visible to this embedding: the train/eval mode flag of the
module and an abstract version counter for the learned parameters, bumped by
every optimizer step. -/
structure NetState where
  trainingMode : Bool
  paramVersion : Nat
  deriving DecidableEq, Repr

/-- Effect of one instruction on the network state: setMode switches the
mode flag, optStep updates the parameters, everything else leaves the state
unchanged. -/
def stepInstr (st : NetState) : Instr → NetState
  | Instr.setMode b => { st with trainingMode := b }
  | Instr.optStep => { st with paramVersion := st.paramVersion + 1 }
  | _ => st

/-- State after executing a list of instructions in order. -/
def execInstrs (st : NetState) (l : List Instr) : NetState :=
  l.foldl stepInstr st

/-- Trace of a run: each instruction paired with the network state in force
at the moment it executes. -/
def run (st : NetState) : List Instr → List (NetState × Instr)
  | [] => []
  | i :: rest => (st, i) :: run (stepInstr st i) rest

/-- Configuration reaching train (ffdnet.py): the parsed arguments it uses,
plus the batch counts of the two data loaders and the already-enumerated
noise-level lists.  val_epoch is the parsed --val_epoch argument (line 287);
the body of train never reads it. -/
structure TrainConfig where
  epoches : Nat
  val_epoch : Nat
  numTrainBatches : Nat
  numValBatches : Nat
  train_noises : List Int
  val_noises : List Int
  model_path : String
  is_gray : Bool

/-- Instructions of one training step (ffdnet.py lines 126-133): forward,
backward, optimizer step; no no_grad context is used. -/
def trainStepInstrs (e b : Nat) (s : Int) : List Instr :=
  [Instr.forward Phase.train e b s false, Instr.backward, Instr.optStep]

/-- Training inner loop of one epoch (lines 113-133): every batch, and for
each batch every enumerated training noise level. -/
def trainInnerInstrs (cfg : TrainConfig) (e : Nat) : List Instr :=
  (List.range cfg.numTrainBatches).flatMap fun b =>
    cfg.train_noises.flatMap fun s => trainStepInstrs e b s

/-- Validation loop of one epoch (lines 168-200): every validation batch and
noise level gets one forward pass; no model.eval(), no torch.no_grad(), no
backward, no optimizer step appears in this loop. -/
def valInstrs (cfg : TrainConfig) (e : Nat) : List Instr :=
  (List.range cfg.numValBatches).flatMap fun b =>
    cfg.val_noises.map fun s => Instr.forward Phase.val e b s false

/-- Conditional tail of an epoch (lines 159-203): when (epoch_idx + 1) % 5
== 0 — the literal 5, not args.val_epoch — the checkpoint is saved and then
the validation loop runs; otherwise the epoch continues to the next. -/
def epochCheckInstrs (cfg : TrainConfig) (e : Nat) : List Instr :=
  if (e + 1) % 5 = 0 then
    Instr.save (trainCheckpointPath cfg.model_path cfg.is_gray) :: valInstrs cfg e
  else []

/-- One full epoch (lines 106-203): model.train() first (line 110), then the
training inner loop, then the conditional save-and-validate tail. -/
def trainEpochInstrs (cfg : TrainConfig) (e : Nat) : List Instr :=
  Instr.setMode true :: (trainInnerInstrs cfg e ++ epochCheckInstrs cfg e)

/-- The whole of train (lines 106-210): all epochs in order, then the final
model.eval() and the unconditional final checkpoint save (lines 206-208). -/
def trainInstrs (cfg : TrainConfig) : List Instr :=
  (List.range cfg.epoches).flatMap (trainEpochInstrs cfg) ++
    [Instr.setMode false,
     Instr.save (trainCheckpointPath cfg.model_path cfg.is_gray)]

/-- Recognizer for validation-phase forward passes. -/
def isValForward : Instr → Bool
  | Instr.forward Phase.val _ _ _ _ => true
  | _ => false

/-- Recognizer for mode switches. -/
def isSetMode : Instr → Bool
  | Instr.setMode _ => true
  | _ => false

theorem stepInstr_trainingMode_of_not_setMode (st : NetState) (i : Instr)
    (h : isSetMode i = false) : (stepInstr st i).trainingMode = st.trainingMode := by
  cases i <;> simp_all [isSetMode, stepInstr]

theorem run_append (st : NetState) (l1 l2 : List Instr) :
    run st (l1 ++ l2) = run st l1 ++ run (execInstrs st l1) l2 := by
  induction l1 generalizing st with
  | nil => simp [run, execInstrs]
  | cons i rest ih => simp [run, execInstrs, List.foldl_cons, ih (stepInstr st i), execInstrs]

theorem run_trainingMode_of_no_setMode (l : List Instr)
    (hl : ∀ i ∈ l, isSetMode i = false) (st : NetState) :
    ∀ p ∈ run st l, (p.1 : NetState).trainingMode = st.trainingMode := by
  induction l generalizing st with
  | nil => intro p hp; simp [run] at hp
  | cons i rest ih =>
      intro p hp
      simp only [run, List.mem_cons] at hp
      rcases hp with hp | hp
      · subst hp; rfl
      · have h1 := ih (fun j hj => hl j (List.mem_cons_of_mem i hj)) (stepInstr st i) p hp
        rw [h1, stepInstr_trainingMode_of_not_setMode st i (hl i (List.mem_cons_self i rest))]

theorem valInstrs_shape (cfg : TrainConfig) (e : Nat) :
    ∀ i ∈ valInstrs cfg e, ∃ b s, i = Instr.forward Phase.val e b s false := by
  intro i hi
  simp only [valInstrs, List.mem_flatMap, List.mem_map] at hi
  obtain ⟨b, _, s, _, h⟩ := hi
  exact ⟨b, s, h.symm⟩

theorem epoch_no_setMode (cfg : TrainConfig) (e : Nat) :
    ∀ i ∈ trainInnerInstrs cfg e ++ epochCheckInstrs cfg e, isSetMode i = false := by
  intro i hi
  rcases List.mem_append.1 hi with hi | hi
  · simp only [trainInnerInstrs, List.mem_flatMap, trainStepInstrs, List.mem_cons,
      List.not_mem_nil, or_false] at hi
    obtain ⟨b, _, s, _, h⟩ := hi
    rcases h with h | h | h <;> subst h <;> rfl
  · rw [epochCheckInstrs] at hi
    by_cases h5 : (e + 1) % 5 = 0
    · rw [if_pos h5] at hi
      rcases List.mem_cons.1 hi with h | h
      · subst h; rfl
      · obtain ⟨b, s, hbs⟩ := valInstrs_shape cfg e i h
        subst hbs; rfl
    · rw [if_neg h5] at hi
      simp at hi

theorem epoch_valForward_mode (cfg : TrainConfig) (e : Nat) (st : NetState) :
    ∀ p ∈ run st (trainEpochInstrs cfg e),
      isValForward (p.2 : Instr) = true → (p.1 : NetState).trainingMode = true := by
  intro p hp hval
  rw [trainEpochInstrs] at hp
  simp only [run, List.mem_cons] at hp
  rcases hp with hp | hp
  · subst hp; simp [isValForward] at hval
  · have := run_trainingMode_of_no_setMode _ (epoch_no_setMode cfg e)
      (stepInstr st (Instr.setMode true)) p hp
    rw [this]; rfl

theorem epochs_valForward_mode (cfg : TrainConfig) (es : List Nat) (st : NetState) :
    ∀ p ∈ run st (es.flatMap (trainEpochInstrs cfg)),
      isValForward (p.2 : Instr) = true → (p.1 : NetState).trainingMode = true := by
  induction es generalizing st with
  | nil => intro p hp; simp [run] at hp
  | cons e rest ih =>
      intro p hp hval
      rw [List.flatMap_cons, run_append] at hp
      rcases List.mem_append.1 hp with hp | hp
      · exact epoch_valForward_mode cfg e st p hp hval
      · exact ih _ p hp hval

/-- Image in channel-first layout as produced by read_image (ffdnet.py lines
18-29): C channels, width W, height H, with rational pixel values standing
for the normalized floats in [0, 1]. -/
structure Img where
  C : Nat
  W : Nat
  H : Nat
  data : Nat → Nat → Nat → ℚ

/-- Width padding in test (ffdnet.py line 238): the last column is
duplicated, np.concatenate((image, image[:, -1, :][:, np.newaxis, :]),
axis=1). -/
def expandLastW (image : Img) : Img :=
  { image with
      W := image.W + 1
      data := fun c w h =>
        if w = image.W then image.data c (image.W - 1) h else image.data c w h }

/-- Height padding in test (ffdnet.py line 241): the last row is duplicated,
np.concatenate((image, image[:, :, -1][:, :, np.newaxis]), axis=2). -/
def expandLastH (image : Img) : Img :=
  { image with
      H := image.H + 1
      data := fun c w h =>
        if h = image.H then image.data c w (image.H - 1) else image.data c w h }

/-- Result of the padding prologue: the possibly expanded image together
with the expend_W / expend_H flags the driver remembers. -/
structure PaddedImage where
  image : Img
  expend_W : Bool
  expend_H : Bool

/-- Padding prologue of test (ffdnet.py lines 234-241): widen when the width
is odd, then heighten when the (possibly widened) image's height is odd,
recording which expansions happened. -/
def padToEven (image : Img) : PaddedImage :=
  let p1 := if image.W % 2 ≠ 0 then PaddedImage.mk (expandLastW image) true false
            else PaddedImage.mk image false false
  if p1.image.H % 2 ≠ 0 then { p1 with image := expandLastH p1.image, expend_H := true }
  else p1

/-- Width crop in test (ffdnet.py line 267): image_pred[:, :, :-1, :]. -/
def cropLastW (image : Img) : Img := { image with W := image.W - 1 }

/-- Height crop in test (ffdnet.py line 269): image_pred[:, :, :, :-1]. -/
def cropLastH (image : Img) : Img := { image with H := image.H - 1 }

/-- Cropping epilogue of test (ffdnet.py lines 266-269): undo the width
expansion, then the height expansion, according to the recorded flags. -/
def unexpand (image : Img) (expend_W expend_H : Bool) : Img :=
  let i1 := if expend_W then cropLastW image else image
  if expend_H then cropLastH i1 else i1

/-- Concrete odd-by-odd image used to instantiate the padding round-trip. -/
def imgOdd : Img := ⟨1, 5, 7, fun _ _ _ => 0⟩

/-- Modelled from the spec: utils.image_to_patches is imported from the
repository's utils module, which is not part of the reviewed source.  Spec
sections 4.2 and 8: for patch size P the extractor produces
floor(W/P) * floor(H/P) non-overlapping P-by-P crops with the source's
channel count, in spatial order; an image smaller than P in either
dimension yields no patches. -/
def image_to_patches (image : Img) (patch_size : Nat) : List Img :=
  (List.range (image.W / patch_size)).flatMap fun i =>
    (List.range (image.H / patch_size)).map fun j =>
      { C := image.C, W := patch_size, H := patch_size,
        data := fun c w h => image.data c (i * patch_size + w) (j * patch_size + h) }

/-- Behaviour of numpy.vstack as called at ffdnet.py line 63: stacking a
list of patch batches concatenates them along the first axis, and numpy
raises ValueError("need at least one array to concatenate") when handed an
empty list. -/
def np_vstack (arrays : List (List Img)) : Except String (List Img) :=
  match arrays with
  | [] => Except.error "need at least one array to concatenate"
  | _ => Except.ok arrays.flatten

/-- images_to_patches (ffdnet.py lines 51-63): per-image patch lists are
computed, those with zero patches are skipped, and the survivors are stacked
with numpy.vstack. -/
def images_to_patches (images : List Img) (patch_size : Nat) : Except String (List Img) :=
  np_vstack ((images.map fun image => image_to_patches image patch_size).filter
    fun patches => patches.length != 0)

/-- Arguments reaching test (ffdnet.py lines 212-274): the listing of the
test directory, the add_noise flag, the model path, and the parsed --is_gray
flag (which test ignores). -/
structure TestArgs where
  test_images : List String
  add_noise : Bool
  model_path : String
  is_gray : Bool

/-- Filesystem-visible events of the inference driver. -/
inductive TestEvent where
  | loadCheckpoint (path : String)
  | writeOutput (path : String)
  | writeNoisy (path : String)
  deriving DecidableEq, Repr

/-- File-level behaviour of test (ffdnet.py lines 212-274): the checkpoint
is loaded once, then for every file name in the test directory the denoised
result is written to "./outputs/" + name + ".png" (line 272) and, when
--add_noise is set, the noisy input is also written to "noisy.png"
(line 274). -/
def testTrace (args : TestArgs) : List TestEvent :=
  TestEvent.loadCheckpoint (testCheckpointPath args.model_path args.is_gray) ::
    (args.test_images.flatMap fun image_name =>
      TestEvent.writeOutput ("./outputs/" ++ image_name ++ ".png") ::
        (if args.add_noise then [TestEvent.writeNoisy "noisy.png"] else []))

/-- Projection selecting the denoised-output write paths of a test event. -/
def outputPathOf : TestEvent → Option String
  | TestEvent.writeOutput p => some p
  | _ => none

/-- Concrete small configuration used to exhibit the behaviour of the
validation loop: 5 epochs (so the save-and-validate tail runs at epoch index
4), one batch and one noise level on each side. -/
def cfgSmall : TrainConfig :=
  { epoches := 5, val_epoch := 5, numTrainBatches := 1, numValBatches := 1,
    train_noises := [0], val_noises := [0],
    model_path := "./models/", is_gray := true }

/-- Concrete configuration with a validation period of 2 requested on the
command line: --val_epoch 2 with 2 training epochs. -/
def cfgValEpoch2 : TrainConfig :=
  { epoches := 2, val_epoch := 2, numTrainBatches := 1, numValBatches := 1,
    train_noises := [0], val_noises := [0],
    model_path := "./models/", is_gray := true }

end FFDNet

namespace FFDNet

/-- C1 counterexample: with the configured interval [0, 75, 15], the program
enumerates 75 as a training noise level, while the claimed set
{0, 15, 30, 45, 60} does not contain 75. -/
theorem C1_counterexample :
    (75 : Int) ∈ trainNoiseLevels (0, 75, 15) ∧
    (75 : Int) ∉ ([0, 15, 30, 45, 60] : List Int) := by
  decide

/-- C1 (amended): for the training noise interval [0, 75, 15], the enumerated
training noise levels after the off-by-one adjustment are exactly
0, 15, 30, 45, 60, 75 — the adjustment makes the configured upper bound 75
itself a produced level. -/
theorem C1_train_noise_levels :
    trainNoiseLevels (0, 75, 15) = [0, 15, 30, 45, 60, 75] := by
  decide

/-- C3: the inference driver's checkpoint path ignores the gray/color flag.
For every model path and every value of the parsed --is_gray argument, test
loads model_path ++ "net_gray.pth"; in particular with the flag unset it does
not load net_rgb.pth, contradicting the flag-selected scheme that train
(trainCheckpointPath) actually follows. -/
theorem C3_test_path_ignores_flag :
    (∀ mp : String, ∀ g : Bool, testCheckpointPath mp g = mp ++ "net_gray.pth") ∧
    (∀ mp : String, testCheckpointPath mp false ≠ mp ++ "net_rgb.pth") ∧
    (∀ mp : String, ∀ g : Bool,
      trainCheckpointPath mp g = mp ++ (if g then "net_gray.pth" else "net_rgb.pth")) := by
  refine ⟨fun mp g => rfl, fun mp h => ?_, fun mp g => rfl⟩
  have h2 := congrArg String.length h
  rw [testCheckpointPath] at h2
  simp only [testHardcodedIsGray, if_pos, String.length_append] at h2
  have e1 : ("net_gray.pth" : String).length = 12 := by decide
  have e2 : ("net_rgb.pth" : String).length = 11 := by decide
  omega

/-- C6: the internally used sigma is the 0-255 scale input divided by 255,
and it lies in [0, 1] whenever the input lies in [0, 255]; moreover every
enumerated default training noise level, so normalized, lies in [0, 1]. -/
theorem C6_sigma_normalization :
    (∀ x : ℚ, normalizeSigma x = x / 255) ∧
    (∀ x : ℚ, 0 ≤ x → x ≤ 255 → 0 ≤ normalizeSigma x ∧ normalizeSigma x ≤ 1) ∧
    (∀ s ∈ trainNoiseLevels (0, 75, 15),
      0 ≤ normalizeSigma (s : ℚ) ∧ normalizeSigma (s : ℚ) ≤ 1) := by
  refine ⟨fun x => rfl, fun x hx hx' => ⟨?_, ?_⟩, ?_⟩
  · exact div_nonneg hx (by norm_num)
  · rw [normalizeSigma, div_le_one (by norm_num : (0:ℚ) < 255)]
    exact hx'
  · intro s hs
    have hlevels : trainNoiseLevels (0, 75, 15) = [0, 15, 30, 45, 60, 75] := by decide
    rw [hlevels] at hs
    fin_cases hs <;> constructor <;> norm_num [normalizeSigma]

/-- C8: main aborts with the assertion failure, running no training or
inference action, exactly when neither is_train nor is_test is set; when at
least one is set the assertion passes and main dispatches the corresponding
actions. -/
theorem C8_assert_guard :
    (∀ a b : Bool, mainActions a b = Except.error "is_train 和 is_test 至少有一个为 True"
        ↔ (a = false ∧ b = false)) ∧
    (∀ a b : Bool, a = true ∨ b = true →
      mainActions a b =
        Except.ok ((if a then [MainAction.runTrain] else []) ++
                   (if b then [MainAction.runTest] else []))) := by
  constructor
  · intro a b
    cases a <;> cases b <;> simp [mainActions, mainAssert]
  · intro a b h
    cases a <;> cases b <;> simp_all [mainActions, mainAssert]

/-- C2 counterexample: in a concrete 5-epoch run there is a validation-loop
forward pass that executes while the network is still in training mode, so
the validation loop is not run in inference mode as the claim states. -/
theorem C2_counterexample :
    ∃ p ∈ run ⟨true, 0⟩ (trainInstrs cfgSmall),
      isValForward (p.2 : Instr) = true ∧ (p.1 : NetState).trainingMode = true := by
  decide

/-- C2 (amended): during the validation loop the network's parameters are
indeed not updated — the validation segment consists only of forward passes
and leaves the network state (mode and parameters) unchanged — but the
network is not placed in inference mode: no no_grad context wraps the
validation forward passes, and every validation forward pass in the full
training trace executes with the module still in training mode from the
epoch's model.train() call. -/
theorem C2_validation_no_update_but_training_mode :
    (∀ cfg : TrainConfig, ∀ e : Nat, ∀ i ∈ valInstrs cfg e,
        i ≠ Instr.backward ∧ i ≠ Instr.optStep ∧ ∀ b : Bool, i ≠ Instr.setMode b) ∧
    (∀ cfg : TrainConfig, ∀ e : Nat, ∀ b s, Instr.forward Phase.val e b s true ∉ valInstrs cfg e) ∧
    (∀ cfg : TrainConfig, ∀ e : Nat, ∀ st : NetState, execInstrs st (valInstrs cfg e) = st) ∧
    (∀ cfg : TrainConfig, ∀ st : NetState, ∀ p ∈ run st (trainInstrs cfg),
        isValForward (p.2 : Instr) = true → (p.1 : NetState).trainingMode = true) := by
  refine ⟨?_, ?_, ?_, ?_⟩
  · intro cfg e i hi
    obtain ⟨b, s, h⟩ := valInstrs_shape cfg e i hi
    subst h
    exact ⟨fun h => Instr.noConfusion h, fun h => Instr.noConfusion h,
           fun b' h => Instr.noConfusion h⟩
  · intro cfg e b s h
    obtain ⟨b', s', h'⟩ := valInstrs_shape cfg e _ h
    cases h'
  · intro cfg e st
    have key : ∀ l : List Instr,
        (∀ i ∈ l, ∃ b s, i = Instr.forward Phase.val e b s false) →
        execInstrs st l = st := by
      intro l
      induction l with
      | nil => intro _; rfl
      | cons i rest ih =>
          intro h
          obtain ⟨b, s, hi⟩ := h i (List.mem_cons_self i rest)
          subst hi
          exact ih fun j hj => h j (List.mem_cons_of_mem _ hj)
    exact key _ (valInstrs_shape cfg e)
  · intro cfg st p hp hval
    rw [trainInstrs, run_append] at hp
    rcases List.mem_append.1 hp with hp | hp
    · exact epochs_valForward_mode cfg (List.range cfg.epoches) st p hp hval
    · simp only [run, List.mem_cons, List.not_mem_nil, or_false] at hp
      rcases hp with hp | hp <;> subst hp <;> simp [isValForward] at hval

/-- C4: the validation/checkpoint condition in train is the hardcoded
(epoch_idx + 1) % 5 == 0 and never consults the parsed --val_epoch value:
for every configuration the save-and-validate tail of an epoch is non-empty
exactly when the 1-based epoch number is a multiple of 5, and in the concrete
run with --val_epoch 2 the 1-based epoch 2 — a multiple of the configured
period — gets no checkpoint save and no validation at all. -/
theorem C4_val_period_hardcoded_five :
    (∀ cfg : TrainConfig, ∀ e : Nat, epochCheckInstrs cfg e ≠ [] ↔ (e + 1) % 5 = 0) ∧
    (cfgValEpoch2.val_epoch = 2 ∧ (1 + 1) % cfgValEpoch2.val_epoch = 0 ∧
      epochCheckInstrs cfgValEpoch2 1 = []) := by
  constructor
  · intro cfg e
    by_cases h : (e + 1) % 5 = 0 <;> simp [epochCheckInstrs, h]
  · refine ⟨rfl, rfl, ?_⟩
    decide

/-- C10: for every configuration, the last instruction train issues is the
unconditional final checkpoint save to the mode-selected path — it happens
after the epoch loop no matter whether the epoch count is a multiple of the
periodic save interval, so the last epoch's parameters are always
persisted. -/
theorem C10_final_save_always :
    ∀ cfg : TrainConfig,
      (trainInstrs cfg).getLast? =
        some (Instr.save (trainCheckpointPath cfg.model_path cfg.is_gray)) := by
  intro cfg
  have h : trainInstrs cfg =
      (((List.range cfg.epoches).flatMap (trainEpochInstrs cfg)) ++
        [Instr.setMode false]) ++
        [Instr.save (trainCheckpointPath cfg.model_path cfg.is_gray)] := by
    simp [trainInstrs, List.append_assoc]
  rw [h, List.getLast?_concat]

/-- C5: for an input image with odd width and/or odd height, the pad-then-
crop sequence around a spatial-dimension-preserving forward pass returns an
output with exactly the original width and height. -/
theorem C5_pad_crop_roundtrip (forward : Img → Img)
    (hdim : ∀ i : Img, (forward i).W = i.W ∧ (forward i).H = i.H)
    (image : Img) (_hodd : image.W % 2 = 1 ∨ image.H % 2 = 1) :
    (unexpand (forward (padToEven image).image)
        (padToEven image).expend_W (padToEven image).expend_H).W = image.W ∧
    (unexpand (forward (padToEven image).image)
        (padToEven image).expend_W (padToEven image).expend_H).H = image.H := by
  have hfW : ∀ i : Img, (forward i).W = i.W := fun i => (hdim i).1
  have hfH : ∀ i : Img, (forward i).H = i.H := fun i => (hdim i).2
  by_cases hw : image.W % 2 = 0 <;> by_cases hh : image.H % 2 = 0 <;>
    simp [padToEven, expandLastW, expandLastH, unexpand, cropLastW, cropLastH,
      hw, hh, hfW, hfH]

/-- C5 witness: with the identity as forward pass and a concrete 1-channel
5-by-7 image, the pad-then-crop pipeline returns width 5 and height 7. -/
theorem C5_pad_crop_roundtrip_witness :
    (unexpand (id (padToEven imgOdd).image)
        (padToEven imgOdd).expend_W (padToEven imgOdd).expend_H).W = 5 ∧
    (unexpand (id (padToEven imgOdd).image)
        (padToEven imgOdd).expend_W (padToEven imgOdd).expend_H).H = 7 := by
  exact C5_pad_crop_roundtrip id (fun i => ⟨rfl, rfl⟩) imgOdd (Or.inl rfl)

/-- C7: the write targets of the inference driver are exactly the input
file names mapped to "./outputs/" followed by the name and a ".png" suffix,
one output write per input image, in order. -/
theorem C7_output_paths (args : TestArgs) :
    (testTrace args).filterMap outputPathOf =
      args.test_images.map fun image_name => "./outputs/" ++ image_name ++ ".png" := by
  rw [testTrace]
  rw [List.filterMap_cons_none rfl]
  induction args.test_images with
  | nil => rfl
  | cons n rest ih =>
      rw [List.flatMap_cons, List.filterMap_append, List.map_cons, ← ih]
      cases h : args.add_noise <;>
        simp [h, List.filterMap_cons, outputPathOf]

theorem flatten_filter_nonempty (L : List (List Img)) :
    (L.filter fun patches => patches.length != 0).flatten = L.flatten := by
  induction L with
  | nil => rfl
  | cons l L ih =>
      by_cases h : l = []
      · subst h; simpa [List.filter_cons] using ih
      · have hlen : (l.length != 0) = true := by
          simpa [bne, List.length_eq_zero] using h
        simp [List.filter_cons, hlen, ih]

/-- C9: images_to_patches skips zero-patch images — a successful result is
the concatenation of all per-image patch lists, the empty ones contributing
nothing — but when every input image yields zero patches (in particular for
an empty image list) it propagates the numpy.vstack error on an empty list
instead of returning an empty patch batch. -/
theorem C9_vstack_empty_error :
    (∀ (images : List Img) (P : Nat),
        (∀ image ∈ images, image_to_patches image P = []) →
        images_to_patches images P =
          Except.error "need at least one array to concatenate") ∧
    (∀ (images : List Img) (P : Nat),
        (∃ image ∈ images, image_to_patches image P ≠ []) →
        images_to_patches images P =
          Except.ok ((images.map fun image => image_to_patches image P).flatten)) := by
  constructor
  · intro images P hall
    rw [images_to_patches]
    have hfil : ((images.map fun image => image_to_patches image P).filter
        fun patches => patches.length != 0) = [] := by
      rw [List.filter_eq_nil_iff]
      intro a ha
      obtain ⟨image, himg, heq⟩ := List.mem_map.1 ha
      subst heq
      simp [hall image himg]
    rw [hfil]; rfl
  · intro images P hex
    obtain ⟨image, himg, hne⟩ := hex
    rw [images_to_patches]
    have hmem : image_to_patches image P ∈
        ((images.map fun image => image_to_patches image P).filter
          fun patches => patches.length != 0) := by
      refine List.mem_filter.2 ⟨List.mem_map_of_mem _ himg, ?_⟩
      simpa [bne, List.length_eq_zero] using hne
    have hfilne := List.ne_nil_of_mem hmem
    rw [← flatten_filter_nonempty (images.map fun image => image_to_patches image P)]
    cases hcase : ((images.map fun image => image_to_patches image P).filter
        fun patches => patches.length != 0) with
    | nil => exact absurd hcase hfilne
    | cons a t => rfl

/-- C9 witness: on the empty image list every image vacuously yields zero
patches and images_to_patches returns the vstack error. -/
theorem C9_vstack_empty_error_witness :
    images_to_patches [] 32 = Except.error "need at least one array to concatenate" := by
  exact C9_vstack_empty_error.1 [] 32 (fun image h => absurd h (List.not_mem_nil image))

end FFDNet
